import Mathlib

/-!
Verification of the bisection solver in `bisection_method_project.py`.

The core function `bisection_method(func, a, b, tol, max_iter)` is embedded
below over an arbitrary linear ordered field (instantiated at `ℚ` for
executable checks and at `ℝ` for the intermediate-value consequences).
The Python loop mutates `a, b`; here the loop is structural recursion on the
remaining iteration budget, carrying the current bracket as a pair.
-/

namespace Bisection

/-- One row of the `iterations` list built by the Python loop:
`{"Iteration": i + 1, "a": a, "b": b, "c": c, "f(c)": f_c}`. -/
structure IterRec (α : Type) where
  iteration : Nat
  a : α
  b : α
  c : α
  fc : α
deriving DecidableEq

/-- The error string returned at line 19 of the source. -/
def noSignChangeMsg : String :=
  "Function must have opposite signs at the endpoints a and b."

/-- The error string returned at line 34 of the source. -/
def maxIterationsMsg : String :=
  "Maximum iterations reached without convergence."

variable {α : Type} [LinearOrderedField α]

/-- The midpoint `c = (a + b) / 2` (line 23). -/
def mid (s : α × α) : α := (s.1 + s.2) / 2

/-- The convergence test of line 27: `abs(f_c) < tol or (b - a) / 2 < tol`. -/
def conv (f : α → α) (tol : α) (s : α × α) : Prop :=
  |f (mid s)| < tol ∨ (s.2 - s.1) / 2 < tol

instance (f : α → α) (tol : α) (s : α × α) : Decidable (conv f tol s) := by
  unfold conv
  infer_instance

/-- One pass of the loop body viewed as a state transformer on the bracket:
if the convergence test of line 27 holds the bracket is left unchanged
(the Python function returns there), otherwise lines 29-32 update it:
`b = c` when `f_c * func(a) < 0`, else `a = c`. -/
def step (f : α → α) (tol : α) (s : α × α) : α × α :=
  if conv f tol s then s
  else if f (mid s) * f s.1 < 0 then (s.1, mid s) else (mid s, s.2)

/-- The bracket at the start of iteration `n + 1` (0-based: `states s 0 = s`). -/
def states (f : α → α) (tol : α) (s : α × α) (n : Nat) : α × α :=
  (step f tol)^[n] s

/-- The iteration record appended during the `n + 1`-st pass (0-based `n`),
with `i` the loop counter value at entry (0 at the top-level call). -/
def recAt (f : α → α) (tol : α) (i : Nat) (s : α × α) (n : Nat) : IterRec α :=
  ⟨i + n + 1, (states f tol s n).1, (states f tol s n).2,
    mid (states f tol s n), f (mid (states f tol s n))⟩

/-- The `for i in range(max_iter)` loop of lines 22-32, with `fuel` the number
of remaining passes and `i` the current value of the loop counter.  Returns
the root (`some c` on the line-28 return, `none` when the loop exhausts) and
the list of records appended from this point on. -/
def bisectionLoop (f : α → α) (tol : α) :
    Nat → Nat → α × α → Option α × List (IterRec α)
  | 0, _, _ => (none, [])
  | fuel + 1, i, s =>
    if |f (mid s)| < tol ∨ (s.2 - s.1) / 2 < tol then
      (some (mid s), [⟨i + 1, s.1, s.2, mid s, f (mid s)⟩])
    else if f (mid s) * f s.1 < 0 then
      ((bisectionLoop f tol fuel (i + 1) (s.1, mid s)).1,
        ⟨i + 1, s.1, s.2, mid s, f (mid s)⟩ ::
          (bisectionLoop f tol fuel (i + 1) (s.1, mid s)).2)
    else
      ((bisectionLoop f tol fuel (i + 1) (mid s, s.2)).1,
        ⟨i + 1, s.1, s.2, mid s, f (mid s)⟩ ::
          (bisectionLoop f tol fuel (i + 1) (mid s, s.2)).2)

/-- `bisection_method(func, a, b, tol, max_iter)` (lines 17-34).  The result
mirrors the Python triple: on the line-18 sign check it returns
`(None, None, message)` - note the trace slot is `None` there, not an empty
list; otherwise the loop runs and the error slot records whether the loop
returned at line 28 (`none`) or fell through to line 34 (the message). -/
def bisection_method (f : α → α) (a b : α) (tol : α) (max_iter : Nat) :
    Option α × Option (List (IterRec α)) × Option String :=
  if f a * f b ≥ 0 then (none, none, some noSignChangeMsg)
  else
    match bisectionLoop f tol max_iter 0 (a, b) with
    | (some c, t) => (some c, some t, none)
    | (none, t) => (none, some t, some maxIterationsMsg)

/-! ### Basic lemmas about the loop -/

lemma states_zero (f : α → α) (tol : α) (s : α × α) : states f tol s 0 = s := rfl

lemma states_succ (f : α → α) (tol : α) (s : α × α) (n : Nat) :
    states f tol s (n + 1) = states f tol (step f tol s) n := by
  simp [states, Function.iterate_succ_apply]

lemma recAt_zero (f : α → α) (tol : α) (i : Nat) (s : α × α) :
    recAt f tol i s 0 = ⟨i + 1, s.1, s.2, mid s, f (mid s)⟩ := rfl

lemma recAt_shift (f : α → α) (tol : α) (i : Nat) (s : α × α) (n : Nat) :
    recAt f tol (i + 1) (step f tol s) n = recAt f tol i s (n + 1) := by
  simp [recAt, states_succ]
  omega

lemma bisectionLoop_conv (f : α → α) (tol : α) (fuel i : Nat) (s : α × α)
    (h : conv f tol s) :
    bisectionLoop f tol (fuel + 1) i s =
      (some (mid s), [⟨i + 1, s.1, s.2, mid s, f (mid s)⟩]) := by
  unfold conv at h
  simp [bisectionLoop, h]

lemma bisectionLoop_not_conv (f : α → α) (tol : α) (fuel i : Nat) (s : α × α)
    (h : ¬ conv f tol s) :
    bisectionLoop f tol (fuel + 1) i s =
      ((bisectionLoop f tol fuel (i + 1) (step f tol s)).1,
        ⟨i + 1, s.1, s.2, mid s, f (mid s)⟩ ::
          (bisectionLoop f tol fuel (i + 1) (step f tol s)).2) := by
  unfold conv at h
  by_cases hb : f (mid s) * f s.1 < 0
  · simp [bisectionLoop, h, step, conv, hb]
  · simp [bisectionLoop, h, step, conv, hb]

lemma map_recAt_range_succ (f : α → α) (tol : α) (i : Nat) (s : α × α) (k : Nat) :
    (List.range (k + 1)).map (recAt f tol i s) =
      ⟨i + 1, s.1, s.2, mid s, f (mid s)⟩ ::
        (List.range k).map (fun n => recAt f tol i s (n + 1)) := by
  rw [List.range_succ_eq_map, List.map_cons, List.map_map]
  rfl

/-- If the convergence test fails at every bracket reached within the budget,
the loop exhausts its fuel: no root, and one record per pass, in order. -/
lemma bisectionLoop_exhaust (f : α → α) (tol : α) :
    ∀ (fuel i : Nat) (s : α × α),
      (∀ n < fuel, ¬ conv f tol (states f tol s n)) →
      bisectionLoop f tol fuel i s =
        (none, (List.range fuel).map (recAt f tol i s)) := by
  intro fuel
  induction fuel with
  | zero => intro i s _; simp [bisectionLoop]
  | succ F ih =>
    intro i s h
    have h0 : ¬ conv f tol s := by
      have := h 0 (Nat.succ_pos F)
      simpa [states_zero] using this
    rw [bisectionLoop_not_conv f tol F i s h0]
    have hrest : ∀ n < F, ¬ conv f tol (states f tol (step f tol s) n) := by
      intro n hn
      have := h (n + 1) (Nat.succ_lt_succ hn)
      rwa [states_succ] at this
    rw [ih (i + 1) (step f tol s) hrest]
    have hmap : (List.range F).map (recAt f tol (i + 1) (step f tol s)) =
        (List.range F).map (fun n => recAt f tol i s (n + 1)) := by
      apply List.map_congr_left
      intro n _
      exact recAt_shift f tol i s n
    rw [hmap, map_recAt_range_succ]

/-- If the convergence test first succeeds at the bracket reached after `N`
updates, and `N` is within the budget, the loop returns the midpoint of that
bracket together with the records of passes `1 .. N + 1`. -/
lemma bisectionLoop_found (f : α → α) (tol : α) :
    ∀ (fuel N i : Nat) (s : α × α),
      N < fuel →
      (∀ n < N, ¬ conv f tol (states f tol s n)) →
      conv f tol (states f tol s N) →
      bisectionLoop f tol fuel i s =
        (some (mid (states f tol s N)),
          (List.range (N + 1)).map (recAt f tol i s)) := by
  intro fuel
  induction fuel with
  | zero => intro N i s hN; omega
  | succ F ih =>
    intro N i s hN hbefore hconv
    cases N with
    | zero =>
      rw [states_zero] at hconv
      rw [bisectionLoop_conv f tol F i s hconv]
      rw [map_recAt_range_succ]
      simp [states_zero]
    | succ M =>
      have h0 : ¬ conv f tol s := by
        have := hbefore 0 (Nat.succ_pos M)
        simpa [states_zero] using this
      rw [bisectionLoop_not_conv f tol F i s h0]
      have hbefore2 : ∀ n < M, ¬ conv f tol (states f tol (step f tol s) n) := by
        intro n hn
        have := hbefore (n + 1) (Nat.succ_lt_succ hn)
        rwa [states_succ] at this
      have hconv2 : conv f tol (states f tol (step f tol s) M) := by
        rwa [states_succ] at hconv
      rw [ih M (i + 1) (step f tol s) (Nat.lt_of_succ_lt_succ hN) hbefore2 hconv2]
      have hmap : (List.range (M + 1)).map (recAt f tol (i + 1) (step f tol s)) =
          (List.range (M + 1)).map (fun n => recAt f tol i s (n + 1)) := by
        apply List.map_congr_left
        intro n _
        exact recAt_shift f tol i s n
      rw [hmap, map_recAt_range_succ, states_succ]

lemma states_succ_right (f : α → α) (tol : α) (s : α × α) (n : Nat) :
    states f tol s (n + 1) = step f tol (states f tol s n) := by
  simp [states, Function.iterate_succ_apply']

/-- A single pass preserves the opposite-sign bracket invariant: if the
endpoint values have opposite signs before the pass, they still do after
(the pass either returns, leaving the bracket unchanged, or keeps the half
whose endpoints still straddle the sign change). -/
lemma step_sign (f : α → α) (tol : α) (s : α × α) (htol : 0 < tol)
    (h : f s.1 * f s.2 < 0) :
    f (step f tol s).1 * f (step f tol s).2 < 0 := by
  unfold step
  by_cases hc : conv f tol s
  · rwa [if_pos hc]
  · rw [if_neg hc]
    by_cases hb : f (mid s) * f s.1 < 0
    · rw [if_pos hb]
      simpa [mul_comm] using hb
    · rw [if_neg hb]
      push_neg at hb
      have hm0 : f (mid s) ≠ 0 := by
        intro h0
        exact hc (Or.inl (by rw [h0]; simpa using htol))
      have h1 : f s.1 ≠ 0 := by
        intro h0
        rw [h0] at h
        simp at h
      have hmp : 0 < f (mid s) * f s.1 :=
        lt_of_le_of_ne hb (Ne.symm (mul_ne_zero hm0 h1))
      rcases mul_pos_iff.mp hmp with ⟨hmpos, h1pos⟩ | ⟨hmneg, h1neg⟩
      · rcases mul_neg_iff.mp h with ⟨_, h2neg⟩ | ⟨h1neg, _⟩
        · exact mul_neg_of_pos_of_neg hmpos h2neg
        · exact absurd h1pos (not_lt.mpr h1neg.le)
      · rcases mul_neg_iff.mp h with ⟨h1pos, _⟩ | ⟨_, h2pos⟩
        · exact absurd h1pos (not_lt.mpr h1neg.le)
        · exact mul_neg_of_neg_of_pos hmneg h2pos

/-- A single pass keeps the bracket properly ordered. -/
lemma step_lt (f : α → α) (tol : α) (s : α × α) (h : s.1 < s.2) :
    (step f tol s).1 < (step f tol s).2 := by
  unfold step
  split_ifs
  · exact h
  · exact left_lt_add_div_two.mpr h
  · exact add_div_two_lt_right.mpr h

/-- Either the convergence test succeeds at some reached bracket within the
budget - then the result is the midpoint of the first such bracket, the
records up to and including that pass, and no error - or it never does, and
the result is no root, the full trace, and the max-iterations message. -/
lemma bisection_cases (f : α → α) (a b tol : α) (m : Nat)
    (hsign : f a * f b < 0) :
    (∃ N, N < m ∧ (∀ k < N, ¬ conv f tol (states f tol (a, b) k)) ∧
      conv f tol (states f tol (a, b) N) ∧
      bisection_method f a b tol m =
        (some (mid (states f tol (a, b) N)),
          some ((List.range (N + 1)).map (recAt f tol 0 (a, b))), none)) ∨
    ((∀ n < m, ¬ conv f tol (states f tol (a, b) n)) ∧
      bisection_method f a b tol m =
        (none, some ((List.range m).map (recAt f tol 0 (a, b))),
          some maxIterationsMsg)) := by
  have hnot : ¬ (f a * f b ≥ 0) := not_le.mpr hsign
  by_cases h : ∃ n, n < m ∧ conv f tol (states f tol (a, b) n)
  · left
    refine ⟨Nat.find h, (Nat.find_spec h).1, ?_, (Nat.find_spec h).2, ?_⟩
    · intro k hk
      have := Nat.find_min h hk
      push_neg at this
      exact this (lt_trans hk (Nat.find_spec h).1)
    · unfold bisection_method
      rw [if_neg hnot,
        bisectionLoop_found f tol m (Nat.find h) 0 (a, b) (Nat.find_spec h).1
          (fun k hk => by
            have := Nat.find_min h hk
            push_neg at this
            exact this (lt_trans hk (Nat.find_spec h).1))
          (Nat.find_spec h).2]
  · right
    push_neg at h
    refine ⟨h, ?_⟩
    unfold bisection_method
    rw [if_neg hnot, bisectionLoop_exhaust f tol m 0 (a, b) h]

/-! ### Claim theorems -/

/-- C1 (counterexample): the claim as stated is false on the code.  At
`f = id, a = 1, b = 2` the sign check `f(a)*f(b) >= 0` holds, and the code
(line 19) returns `None` in the trace slot - the trace is absent, not the
empty list the claim describes. -/
theorem C1_no_sign_change_counterexample :
    ((fun x : ℚ => x) 1 * (fun x : ℚ => x) 2 ≥ 0) ∧
      (bisection_method (fun x : ℚ => x) 1 2 1 1).2.1 ≠ some [] ∧
      (bisection_method (fun x : ℚ => x) 1 2 1 1).2.1 = none := by
  refine ⟨by norm_num, ?_, ?_⟩ <;>
    simp [bisection_method]

/-- C1 (amended): whenever `f(a) * f(b) >= 0`, `bisection_method` returns
the triple (absent root, absent trace - the Python `None`, not an empty
list - and the no-sign-change error), performing no iteration: no midpoint
is computed and no iteration record is created. -/
theorem C1_no_sign_change {α : Type} [LinearOrderedField α]
    (f : α → α) (a b tol : α) (m : Nat) (h : f a * f b ≥ 0) :
    bisection_method f a b tol m = (none, none, some noSignChangeMsg) := by
  unfold bisection_method
  rw [if_pos h]

theorem C1_no_sign_change_witness :
    ((fun x : ℚ => x) 1 * (fun x : ℚ => x) 3 ≥ 0) ∧
      bisection_method (fun x : ℚ => x) 1 3 1 2 =
        (none, none, some noSignChangeMsg) :=
  ⟨by norm_num, C1_no_sign_change (fun x : ℚ => x) 1 3 1 2 (by norm_num)⟩

/-- C4: whenever a pass completes without converging (so the bracket update
of lines 29-32 runs), the next bracket's width is exactly half the previous
width - in particular at most half, so the bounds strictly narrow. -/
theorem C4_interval_halving {α : Type} [LinearOrderedField α]
    (f : α → α) (a b tol : α) (n : Nat)
    (h : ¬ conv f tol (states f tol (a, b) n)) :
    ((states f tol (a, b) (n + 1)).2 - (states f tol (a, b) (n + 1)).1 =
      ((states f tol (a, b) n).2 - (states f tol (a, b) n).1) / 2) ∧
    ((states f tol (a, b) (n + 1)).2 - (states f tol (a, b) (n + 1)).1 ≤
      ((states f tol (a, b) n).2 - (states f tol (a, b) n).1) / 2) := by
  have key : (states f tol (a, b) (n + 1)).2 - (states f tol (a, b) (n + 1)).1 =
      ((states f tol (a, b) n).2 - (states f tol (a, b) n).1) / 2 := by
    rw [states_succ_right]
    unfold step
    rw [if_neg h]
    split_ifs
    · simp [mid]
      ring
    · simp [mid]
      ring
  exact ⟨key, le_of_eq key⟩

theorem C4_interval_halving_witness :
    (¬ conv (fun x : ℚ => x) (1/10) (states (fun x : ℚ => x) (1/10) (1, 3) 0)) ∧
      ((states (fun x : ℚ => x) (1/10) ((1 : ℚ), 3) 1).2 -
          (states (fun x : ℚ => x) (1/10) ((1 : ℚ), 3) 1).1 =
        ((states (fun x : ℚ => x) (1/10) ((1 : ℚ), 3) 0).2 -
          (states (fun x : ℚ => x) (1/10) ((1 : ℚ), 3) 0).1) / 2) :=
  ⟨by norm_num [conv, mid, states, abs_lt],
    (C4_interval_halving (fun x : ℚ => x) 1 3 (1/10) 0
      (by norm_num [conv, mid, states, abs_lt])).1⟩

/-- C5: when the convergence test fails at every bracket reached in the
budget, the result is no root, the full trace of exactly `max_iter`
records, and the max-iterations error message (line 34). -/
theorem C5_exhaustion {α : Type} [LinearOrderedField α]
    (f : α → α) (a b tol : α) (m : Nat)
    (hsign : f a * f b < 0)
    (h : ∀ n < m, ¬ conv f tol (states f tol (a, b) n)) :
    bisection_method f a b tol m =
      (none, some ((List.range m).map (recAt f tol 0 (a, b))),
        some maxIterationsMsg) ∧
    ((List.range m).map (recAt f tol 0 (a, b))).length = m := by
  constructor
  · unfold bisection_method
    rw [if_neg (not_le.mpr hsign), bisectionLoop_exhaust f tol m 0 (a, b) h]
  · simp

/-- C5 witness: `max_iterations = 1` with a tolerance too small for the
first midpoint yields (absent, trace of length 1, MaxIterationsExceeded). -/
theorem C5_exhaustion_witness :
    ((fun x : ℚ => x) (-3) * (fun x : ℚ => x) 1 < 0) ∧
      (∀ n < 1, ¬ conv (fun x : ℚ => x) (1/10)
        (states (fun x : ℚ => x) (1/10) ((-3 : ℚ), 1) n)) ∧
      (bisection_method (fun x : ℚ => x) (-3) 1 (1/10) 1 =
        (none, some ((List.range 1).map
          (recAt (fun x : ℚ => x) (1/10) 0 ((-3 : ℚ), 1))),
          some maxIterationsMsg) ∧
        ((List.range 1).map (recAt (fun x : ℚ => x) (1/10) 0 ((-3 : ℚ), 1))).length = 1) := by
  have h : ∀ n < 1, ¬ conv (fun x : ℚ => x) (1/10)
      (states (fun x : ℚ => x) (1/10) ((-3 : ℚ), 1) n) := by
    intro n hn
    interval_cases n
    norm_num [conv, mid, states, abs_lt]
  exact ⟨by norm_num, h, C5_exhaustion (fun x : ℚ => x) (-3) 1 (1/10) 1 (by norm_num) h⟩

/-- C6: with a positive tolerance, an exact zero at the midpoint makes the
line-27 convergence test succeed, so the pass returns at line 28 before
the bracket update of lines 29-32 can run: the update step leaves the
bracket unchanged, and the loop returns the midpoint with that single
record whenever any budget remains. -/
theorem C6_exact_zero_unreachable {α : Type} [LinearOrderedField α]
    (f : α → α) (tol : α) (s : α × α) (htol : 0 < tol)
    (h0 : f (mid s) = 0) :
    conv f tol s ∧ step f tol s = s ∧
      ∀ fuel i, bisectionLoop f tol (fuel + 1) i s =
        (some (mid s), [⟨i + 1, s.1, s.2, mid s, f (mid s)⟩]) := by
  have hc : conv f tol s := Or.inl (by rw [h0]; simpa using htol)
  exact ⟨hc, by unfold step; rw [if_pos hc],
    fun fuel i => bisectionLoop_conv f tol fuel i s hc⟩

theorem C6_exact_zero_unreachable_witness :
    ((0 : ℚ) < 1/10) ∧ ((fun x : ℚ => x - 2) (mid ((1 : ℚ), 3)) = 0) ∧
      (conv (fun x : ℚ => x - 2) (1/10) ((1 : ℚ), 3) ∧
        step (fun x : ℚ => x - 2) (1/10) ((1 : ℚ), 3) = ((1 : ℚ), 3) ∧
        ∀ fuel i, bisectionLoop (fun x : ℚ => x - 2) (1/10) (fuel + 1) i ((1 : ℚ), 3) =
          (some (mid ((1 : ℚ), 3)),
            [⟨i + 1, 1, 3, mid ((1 : ℚ), 3),
              (fun x : ℚ => x - 2) (mid ((1 : ℚ), 3))⟩])) :=
  ⟨by norm_num, by norm_num [mid],
    C6_exact_zero_unreachable (fun x : ℚ => x - 2) (1/10) ((1 : ℚ), 3)
      (by norm_num) (by norm_num [mid])⟩

/-- C2: for a valid call, a root is returned with no error exactly when the
line-27 convergence test holds at some reached bracket within the budget
(iteration `i = n + 1 ≤ max_iter` tests the bracket after `n` updates); at
the first such iteration the result is exactly that iteration's midpoint,
the trace holds exactly the records of iterations `1 .. n + 1`, and the
test is applied to the bounds before that iteration's update. -/
theorem C2_convergence_characterization {α : Type} [LinearOrderedField α]
    (f : α → α) (a b tol : α) (m : Nat)
    (_hab : a ≠ b) (_htol : 0 < tol) (_hm : 1 ≤ m) (hsign : f a * f b < 0) :
    (((∃ r, (bisection_method f a b tol m).1 = some r) ∧
        (bisection_method f a b tol m).2.2 = none) ↔
      ∃ n, n < m ∧ conv f tol (states f tol (a, b) n)) ∧
    (∀ N, N < m → (∀ k < N, ¬ conv f tol (states f tol (a, b) k)) →
      conv f tol (states f tol (a, b) N) →
      bisection_method f a b tol m =
        (some (mid (states f tol (a, b) N)),
          some ((List.range (N + 1)).map (recAt f tol 0 (a, b))), none)) := by
  have hnot : ¬ (f a * f b ≥ 0) := not_le.mpr hsign
  constructor
  · rcases bisection_cases f a b tol m hsign with
      ⟨N, hNm, _, hconv, heq⟩ | ⟨hnone, heq⟩
    · constructor
      · intro _
        exact ⟨N, hNm, hconv⟩
      · intro _
        rw [heq]
        exact ⟨⟨_, rfl⟩, rfl⟩
    · constructor
      · intro hroot
        rw [heq] at hroot
        rcases hroot with ⟨⟨r, hr⟩, _⟩
        simp at hr
      · rintro ⟨n, hn, hc⟩
        exact absurd hc (hnone n hn)
  · intro N hNm hmin hconv
    unfold bisection_method
    rw [if_neg hnot, bisectionLoop_found f tol m N 0 (a, b) hNm hmin hconv]

theorem C2_convergence_characterization_witness :
    (((-1 : ℚ) ≠ 1) ∧ ((0 : ℚ) < 1) ∧ (1 ≤ 5) ∧
      ((fun x : ℚ => x) (-1) * (fun x : ℚ => x) 1 < 0)) ∧
    ((((∃ r, (bisection_method (fun x : ℚ => x) (-1) 1 1 5).1 = some r) ∧
        (bisection_method (fun x : ℚ => x) (-1) 1 1 5).2.2 = none) ↔
      ∃ n, n < 5 ∧ conv (fun x : ℚ => x) 1 (states (fun x : ℚ => x) 1 ((-1 : ℚ), 1) n)) ∧
    (∀ N, N < 5 →
      (∀ k < N, ¬ conv (fun x : ℚ => x) 1 (states (fun x : ℚ => x) 1 ((-1 : ℚ), 1) k)) →
      conv (fun x : ℚ => x) 1 (states (fun x : ℚ => x) 1 ((-1 : ℚ), 1) N) →
      bisection_method (fun x : ℚ => x) (-1) 1 1 5 =
        (some (mid (states (fun x : ℚ => x) 1 ((-1 : ℚ), 1) N)),
          some ((List.range (N + 1)).map
            (recAt (fun x : ℚ => x) 1 0 ((-1 : ℚ), 1))), none))) :=
  ⟨⟨by norm_num, by norm_num, by norm_num, by norm_num⟩,
    C2_convergence_characterization (fun x : ℚ => x) (-1) 1 1 5
      (by norm_num) (by norm_num) (by norm_num) (by norm_num)⟩

/-- C8: when the sign check passes, the trace is present and its entry at
position `k` (0-based) is exactly the record of iteration `k + 1`: the
1-based index, the bounds as they stood before that iteration's update,
the midpoint of those bounds, and the function value at that midpoint;
records appear in iteration order and are never modified. -/
theorem C8_trace_records {α : Type} [LinearOrderedField α]
    (f : α → α) (a b tol : α) (m : Nat) (hsign : f a * f b < 0) :
    ∃ t : List (IterRec α), (bisection_method f a b tol m).2.1 = some t ∧
      ∀ k, ∀ hk : k < t.length,
        t.get ⟨k, hk⟩ =
          ⟨k + 1, (states f tol (a, b) k).1, (states f tol (a, b) k).2,
            mid (states f tol (a, b) k), f (mid (states f tol (a, b) k))⟩ := by
  rcases bisection_cases f a b tol m hsign with
    ⟨N, _, _, _, heq⟩ | ⟨_, heq⟩ <;>
  · refine ⟨_, by rw [heq], ?_⟩
    intro k hk
    simp only [List.get_eq_getElem, List.getElem_map, List.getElem_range, recAt]
    simp

theorem C8_trace_records_witness :
    ((fun x : ℚ => x) (-1) * (fun x : ℚ => x) 1 < 0) ∧
      ∃ t : List (IterRec ℚ),
        (bisection_method (fun x : ℚ => x) (-1) 1 1 3).2.1 = some t ∧
        ∀ k, ∀ hk : k < t.length,
          t.get ⟨k, hk⟩ =
            ⟨k + 1, (states (fun x : ℚ => x) 1 ((-1 : ℚ), 1) k).1,
              (states (fun x : ℚ => x) 1 ((-1 : ℚ), 1) k).2,
              mid (states (fun x : ℚ => x) 1 ((-1 : ℚ), 1) k),
              (fun x : ℚ => x) (mid (states (fun x : ℚ => x) 1 ((-1 : ℚ), 1) k))⟩ :=
  ⟨by norm_num, C8_trace_records (fun x : ℚ => x) (-1) 1 1 3 (by norm_num)⟩

/-- C9: the solver is a pure function of its arguments - two calls whose
function arguments agree pointwise (in particular, two calls with the very
same arguments) return identical triples: same root-or-absent, same trace
element by element, same error-or-absent.  The embedding itself is a Lean
function with no ambient state, so no state outside the call exists. -/
theorem C9_deterministic {α : Type} [LinearOrderedField α]
    (f g : α → α) (a b tol : α) (m : Nat) (h : ∀ x, f x = g x) :
    bisection_method f a b tol m = bisection_method g a b tol m := by
  rw [funext h]

theorem C9_deterministic_witness :
    (∀ x : ℚ, (fun y : ℚ => y) x = (fun y : ℚ => y) x) ∧
      bisection_method (fun y : ℚ => y) (-1) 1 1 3 =
        bisection_method (fun y : ℚ => y) (-1) 1 1 3 :=
  ⟨fun _ => rfl, C9_deterministic (fun y : ℚ => y) (fun y : ℚ => y) (-1) 1 1 3
    (fun _ => rfl)⟩

/-- C10: with reversed bounds `a > b` (still passing the sign check), the
width test `(b - a) / 2 < tol` holds trivially for the negative width, so
the very first iteration converges: the result is the midpoint
`(a + b) / 2`, a trace of exactly one record, and no error - no bisection
update ever runs. -/
theorem C10_reversed_bounds {α : Type} [LinearOrderedField α]
    (f : α → α) (a b tol : α) (m : Nat)
    (hba : b < a) (htol : 0 < tol) (hsign : f a * f b < 0) (hm : 1 ≤ m) :
    bisection_method f a b tol m =
      (some ((a + b) / 2),
        some [⟨1, a, b, (a + b) / 2, f ((a + b) / 2)⟩], none) := by
  obtain ⟨m', rfl⟩ : ∃ m', m = m' + 1 := ⟨m - 1, by omega⟩
  have hconv : conv f tol (a, b) :=
    Or.inr (lt_trans (div_neg_of_neg_of_pos (sub_neg.mpr hba) two_pos) htol)
  unfold bisection_method
  rw [if_neg (not_le.mpr hsign), bisectionLoop_conv f tol m' 0 (a, b) hconv]
  simp [mid]

theorem C10_reversed_bounds_witness :
    ((-2 : ℚ) < 1) ∧ ((0 : ℚ) < 1) ∧
      ((fun x : ℚ => x) 1 * (fun x : ℚ => x) (-2) < 0) ∧ (1 ≤ 3) ∧
      bisection_method (fun x : ℚ => x) 1 (-2) 1 3 =
        (some ((1 + -2) / 2),
          some [⟨1, 1, -2, (1 + -2) / 2, (fun x : ℚ => x) ((1 + -2) / 2)⟩], none) :=
  ⟨by norm_num, by norm_num, by norm_num, by norm_num,
    C10_reversed_bounds (fun x : ℚ => x) 1 (-2) 1 3
      (by norm_num) (by norm_num) (by norm_num) (by norm_num)⟩

/-- C3: for a valid call over the reals with `a < b`, the opposite-sign
bracket invariant holds at the start of every iteration (every state of the
bracket sequence keeps `f(a_i) * f(b_i) < 0` and `a_i < b_i`), for any
function `f`; and consequently, when `f` is moreover continuous, every
such interval `[a_i, b_i]` contains a true root of `f`. -/
theorem C3_bracket_invariant (f : ℝ → ℝ) (a b tol : ℝ)
    (htol : 0 < tol) (hab : a < b) (hsign : f a * f b < 0) (n : Nat) :
    f (states f tol (a, b) n).1 * f (states f tol (a, b) n).2 < 0 ∧
    (states f tol (a, b) n).1 < (states f tol (a, b) n).2 ∧
    (Continuous f →
      ∃ r ∈ Set.Icc (states f tol (a, b) n).1 (states f tol (a, b) n).2,
        f r = 0) := by
  have key : ∀ k, f (states f tol (a, b) k).1 * f (states f tol (a, b) k).2 < 0 ∧
      (states f tol (a, b) k).1 < (states f tol (a, b) k).2 := by
    intro k
    induction k with
    | zero => exact ⟨hsign, hab⟩
    | succ j ih =>
      rw [states_succ_right]
      exact ⟨step_sign f tol _ htol ih.1, step_lt f tol _ ih.2⟩
  refine ⟨(key n).1, (key n).2, ?_⟩
  intro hf
  set s := states f tol (a, b) n with hs
  rcases mul_neg_iff.mp (key n).1 with ⟨h1pos, h2neg⟩ | ⟨h1neg, h2pos⟩
  · have h0 : (0 : ℝ) ∈ Set.Icc (f s.2) (f s.1) :=
      ⟨le_of_lt h2neg, le_of_lt h1pos⟩
    obtain ⟨r, hr, hfr⟩ :=
      intermediate_value_Icc' (le_of_lt (key n).2) hf.continuousOn h0
    exact ⟨r, hr, hfr⟩
  · have h0 : (0 : ℝ) ∈ Set.Icc (f s.1) (f s.2) :=
      ⟨le_of_lt h1neg, le_of_lt h2pos⟩
    obtain ⟨r, hr, hfr⟩ :=
      intermediate_value_Icc (le_of_lt (key n).2) hf.continuousOn h0
    exact ⟨r, hr, hfr⟩

theorem C3_bracket_invariant_witness :
    ((0 : ℝ) < 1) ∧ ((-1 : ℝ) < 1) ∧
      ((fun x : ℝ => x) (-1) * (fun x : ℝ => x) 1 < 0) ∧
      ((fun x : ℝ => x) (states (fun x : ℝ => x) 1 ((-1 : ℝ), 1) 0).1 *
          (fun x : ℝ => x) (states (fun x : ℝ => x) 1 ((-1 : ℝ), 1) 0).2 < 0 ∧
        (states (fun x : ℝ => x) 1 ((-1 : ℝ), 1) 0).1 <
          (states (fun x : ℝ => x) 1 ((-1 : ℝ), 1) 0).2 ∧
        (Continuous (fun x : ℝ => x) →
          ∃ r ∈ Set.Icc (states (fun x : ℝ => x) 1 ((-1 : ℝ), 1) 0).1
            (states (fun x : ℝ => x) 1 ((-1 : ℝ), 1) 0).2,
            (fun x : ℝ => x) r = 0)) :=
  ⟨by norm_num, by norm_num, by norm_num,
    C3_bracket_invariant (fun x : ℝ => x) (-1) 1 1
      (by norm_num) (by norm_num) (by norm_num) 0⟩

/-- The test polynomial from the spec: `f(x) = x**3 - 4*x + 1`. -/
def fcubic : ℚ → ℚ := fun x => x ^ 3 - 4 * x + 1

set_option maxHeartbeats 2000000 in
/-- C7: on `f(x) = x^3 - 4x + 1`, `a = 0`, `b = 1`, `tolerance = 10^-6`,
`max_iterations = 100`, the solver returns a present root `r` with no
error, `|f(r)| < 10^-6`, and `r` within `10^-5` of `0.254102` (the exact
result is `266445/1048576 ≈ 0.2541008`, reached at iteration 20). -/
theorem C7_cubic_convergence :
    ∃ r : ℚ, (bisection_method fcubic 0 1 (1/1000000) 100).1 = some r ∧
      (bisection_method fcubic 0 1 (1/1000000) 100).2.2 = none ∧
      |fcubic r| < 1/1000000 ∧ |r - 254102/1000000| < 1/100000 := by
  have e0 : states fcubic (1/1000000) ((0 : ℚ), 1) 0 = (0, 1) := rfl
  have e1 : states fcubic (1/1000000) ((0 : ℚ), 1) 1 = (0, 1/2) := by
    rw [states_succ_right, e0]
    norm_num [step, conv, mid, fcubic, abs_lt]
  have e2 : states fcubic (1/1000000) ((0 : ℚ), 1) 2 = (1/4, 1/2) := by
    rw [states_succ_right, e1]
    norm_num [step, conv, mid, fcubic, abs_lt]
  have e3 : states fcubic (1/1000000) ((0 : ℚ), 1) 3 = (1/4, 3/8) := by
    rw [states_succ_right, e2]
    norm_num [step, conv, mid, fcubic, abs_lt]
  have e4 : states fcubic (1/1000000) ((0 : ℚ), 1) 4 = (1/4, 5/16) := by
    rw [states_succ_right, e3]
    norm_num [step, conv, mid, fcubic, abs_lt]
  have e5 : states fcubic (1/1000000) ((0 : ℚ), 1) 5 = (1/4, 9/32) := by
    rw [states_succ_right, e4]
    norm_num [step, conv, mid, fcubic, abs_lt]
  have e6 : states fcubic (1/1000000) ((0 : ℚ), 1) 6 = (1/4, 17/64) := by
    rw [states_succ_right, e5]
    norm_num [step, conv, mid, fcubic, abs_lt]
  have e7 : states fcubic (1/1000000) ((0 : ℚ), 1) 7 = (1/4, 33/128) := by
    rw [states_succ_right, e6]
    norm_num [step, conv, mid, fcubic, abs_lt]
  have e8 : states fcubic (1/1000000) ((0 : ℚ), 1) 8 = (65/256, 33/128) := by
    rw [states_succ_right, e7]
    norm_num [step, conv, mid, fcubic, abs_lt]
  have e9 : states fcubic (1/1000000) ((0 : ℚ), 1) 9 = (65/256, 131/512) := by
    rw [states_succ_right, e8]
    norm_num [step, conv, mid, fcubic, abs_lt]
  have e10 : states fcubic (1/1000000) ((0 : ℚ), 1) 10 = (65/256, 261/1024) := by
    rw [states_succ_right, e9]
    norm_num [step, conv, mid, fcubic, abs_lt]
  have e11 : states fcubic (1/1000000) ((0 : ℚ), 1) 11 = (65/256, 521/2048) := by
    rw [states_succ_right, e10]
    norm_num [step, conv, mid, fcubic, abs_lt]
  have e12 : states fcubic (1/1000000) ((0 : ℚ), 1) 12 = (65/256, 1041/4096) := by
    rw [states_succ_right, e11]
    norm_num [step, conv, mid, fcubic, abs_lt]
  have e13 : states fcubic (1/1000000) ((0 : ℚ), 1) 13 = (2081/8192, 1041/4096) := by
    rw [states_succ_right, e12]
    norm_num [step, conv, mid, fcubic, abs_lt]
  have e14 : states fcubic (1/1000000) ((0 : ℚ), 1) 14 = (4163/16384, 1041/4096) := by
    rw [states_succ_right, e13]
    norm_num [step, conv, mid, fcubic, abs_lt]
  have e15 : states fcubic (1/1000000) ((0 : ℚ), 1) 15 = (4163/16384, 8327/32768) := by
    rw [states_succ_right, e14]
    norm_num [step, conv, mid, fcubic, abs_lt]
  have e16 : states fcubic (1/1000000) ((0 : ℚ), 1) 16 = (4163/16384, 16653/65536) := by
    rw [states_succ_right, e15]
    norm_num [step, conv, mid, fcubic, abs_lt]
  have e17 : states fcubic (1/1000000) ((0 : ℚ), 1) 17 = (33305/131072, 16653/65536) := by
    rw [states_succ_right, e16]
    norm_num [step, conv, mid, fcubic, abs_lt]
  have e18 : states fcubic (1/1000000) ((0 : ℚ), 1) 18 = (66611/262144, 16653/65536) := by
    rw [states_succ_right, e17]
    norm_num [step, conv, mid, fcubic, abs_lt]
  have e19 : states fcubic (1/1000000) ((0 : ℚ), 1) 19 = (66611/262144, 133223/524288) := by
    rw [states_succ_right, e18]
    norm_num [step, conv, mid, fcubic, abs_lt]
  have hconv : conv fcubic (1/1000000) (states fcubic (1/1000000) ((0 : ℚ), 1) 19) := by
    rw [e19]
    norm_num [conv, mid, fcubic, abs_lt]
  have hbefore : ∀ n < 19,
      ¬ conv fcubic (1/1000000) (states fcubic (1/1000000) ((0 : ℚ), 1) n) := by
    intro n hn
    interval_cases n <;>
      simp only [e0, e1, e2, e3, e4, e5, e6, e7, e8, e9, e10, e11, e12, e13,
        e14, e15, e16, e17, e18] <;>
      norm_num [conv, mid, fcubic, abs_lt]
  have hfound := bisectionLoop_found fcubic (1/1000000) 100 19 0 ((0 : ℚ), 1)
    (by norm_num) hbefore hconv
  have hmid : mid (states fcubic (1/1000000) ((0 : ℚ), 1) 19) = 266445/1048576 := by
    rw [e19]
    norm_num [mid]
  have hres : bisection_method fcubic 0 1 (1/1000000) 100 =
      (some (266445/1048576),
        some ((List.range 20).map (recAt fcubic (1/1000000) 0 ((0 : ℚ), 1))), none) := by
    unfold bisection_method
    rw [if_neg (by norm_num [fcubic] : ¬ (fcubic 0 * fcubic 1 ≥ 0)), hfound, hmid]
  refine ⟨266445/1048576, ?_, ?_, ?_, ?_⟩
  · rw [hres]
  · rw [hres]
  · norm_num [fcubic, abs_lt]
  · norm_num [abs_lt]

end Bisection
